import Mathlib

/-!
# Verification of the model-identity codec and label-hierarchy mapper

This file embeds the filename-decoding functions and the CIFAR-100
fine/coarse label tables of the repository (src/src/evaluate.py,
src/src/embeddings.py, src/src/evaluate_multiclass.py,
src/src/utility/cifar_utils.py) and proves or refutes the frozen claims
about them.

Python strings are modelled as `List Char`.  The Python string operations
used by the source (`in`, `.split`, `.replace`, `int(...)`) are modelled by
`pyIn`, `pySplit`, `pyReplace`, `pyInt` below, faithful to CPython
semantics on the inputs that occur in this code base (non-empty separators;
`int` applied to an optionally minus-signed digit string, with no surrounding
whitespace, '+' sign, or '_' digit separators).
-/

/-- Python `sub in s` (contiguous substring test), scanning left to right. -/
def pyIn (pat : List Char) : List Char → Bool
  | [] => pat.isEmpty
  | c :: rest => pat.isPrefixOf (c :: rest) || pyIn pat rest

/-- Fuel-driven worker for `pySplit`.  `fuel ≥ s.length` makes the fuel
irrelevant (proved in `pySplitF_fuel_irrel`). -/
def pySplitF (sep : List Char) : Nat → List Char → List (List Char)
  | _, [] => [[]]
  | 0, s => [s]
  | Nat.succ fuel, c :: rest =>
    if sep.isPrefixOf (c :: rest) then
      [] :: pySplitF sep fuel (List.drop (sep.length - 1) rest)
    else
      (c :: (pySplitF sep fuel rest).headD []) :: (pySplitF sep fuel rest).tail

/-- Python `s.split(sep)` for a non-empty separator: greedy left-to-right,
non-overlapping.  (CPython raises on an empty separator; the source never
splits on one, and we return `[s]` in that unused case.) -/
def pySplit (sep s : List Char) : List (List Char) :=
  if sep.isEmpty then [s] else pySplitF sep s.length s

/-- Python `s.replace(old, new)`: replaces every non-overlapping occurrence
of `old`, left to right.  For a non-empty `old` this is exactly
`new.join(s.split(old))`. -/
def pyReplace (s old new : List Char) : List Char :=
  List.intercalate new (pySplit old s)

/-- Value of a decimal digit string (most significant first). -/
def digitsVal (s : List Char) : Nat :=
  s.foldl (fun a c => 10 * a + (c.toNat - 48)) 0

/-- Python `int(s)` on the strings this code base produces: an optional
leading minus sign followed by a non-empty run of decimal digits; anything else
raises `ValueError`, modelled as `none`. -/
def pyInt (s : List Char) : Option Int :=
  if s.head? = some '-' then
    if s.tail ≠ [] ∧ (∀ x ∈ s.tail, x.isDigit = true) then
      some (-(digitsVal s.tail : Int))
    else none
  else
    if s ≠ [] ∧ (∀ x ∈ s, x.isDigit = true) then
      some ((digitsVal s : Int))
    else none

/-- Python `str(n)` for a natural number. -/
def natToChars (n : Nat) : List Char := Nat.toDigits 10 n

/-! ## Error model

Python exceptions raised (or silently produced values) by the decoders:
* `unknownGranularity`  — `ValueError("granularity not found")`;
* `invalidParameterName` — `ValueError("invalid parameter input")`;
* `intValueError` — `ValueError` from `int(<non-numeric string>)`;
* `intNoneTypeError` — `TypeError` from `int(None)` when `get_parameter`
  fell through its loop and returned `None`;
* `stopIteration` — `StopIteration` from `next()` on an empty iterator in
  `superclass_to_idx`. -/

deriving instance DecidableEq for Except

inductive Err where
  | unknownGranularity
  | invalidParameterName
  | intValueError
  | intNoneTypeError
  | stopIteration
deriving DecidableEq

/-- Result of the `superclass_to_idx` variants: a plain string, the
`(string, None)` pair returned by the `"all_"` branch in evaluate.py, or a
raised exception. -/
inductive SupRes where
  | str (s : List Char)
  | pairNone (s : List Char)
  | err (e : Err)
deriving DecidableEq

/-! ## src/src/utility/cifar_utils.py -/

/-- `coarse_classes` (cifar_utils.py lines 160-181), strict order. -/
def coarse_classes : List (List Char) :=
  [ ("aquatic_mammals".toList), ("fish".toList), ("flowers".toList),
    ("food_containers".toList), ("fruit_and_vegetables".toList),
    ("household_electrical_devices".toList), ("household_furniture".toList),
    ("insects".toList), ("large_carnivores".toList),
    ("large_man-made_outdoor_things".toList),
    ("large_natural_outdoor_scenes".toList),
    ("large_omnivores_and_herbivores".toList), ("medium_mammals".toList),
    ("non-insect_invertebrates".toList), ("people".toList),
    ("reptiles".toList), ("small_mammals".toList), ("trees".toList),
    ("vehicles_1".toList), ("vehicles_2".toList) ]

/-- `coarse_class_to_idx` (cifar_utils.py lines 206-227): insertion-ordered
dict from coarse class name to index, modelled as an association list in
the same order (Python dicts iterate in insertion order). -/
def coarse_class_to_idx : List (List Char × Nat) :=
  [ (("aquatic_mammals".toList), 0), (("fish".toList), 1),
    (("flowers".toList), 2), (("food_containers".toList), 3),
    (("fruit_and_vegetables".toList), 4),
    (("household_electrical_devices".toList), 5),
    (("household_furniture".toList), 6), (("insects".toList), 7),
    (("large_carnivores".toList), 8),
    (("large_man-made_outdoor_things".toList), 9),
    (("large_natural_outdoor_scenes".toList), 10),
    (("large_omnivores_and_herbivores".toList), 11),
    (("medium_mammals".toList), 12), (("non-insect_invertebrates".toList), 13),
    (("people".toList), 14), (("reptiles".toList), 15),
    (("small_mammals".toList), 16), (("trees".toList), 17),
    (("vehicles_1".toList), 18), (("vehicles_2".toList), 19) ]

/-- `fine_idx_to_coarse` (cifar_utils.py lines 231-334): the fixed
100-entry fine-index to coarse-index table, strict order. -/
def fine_idx_to_coarse : List Nat :=
  [4, 1, 14, 8, 0, 6, 7, 7, 18, 3,
   3, 14, 9, 18, 7, 11, 3, 9, 7, 11,
   6, 11, 5, 10, 7, 6, 13, 15, 3, 15,
   0, 11, 1, 10, 12, 14, 16, 9, 11, 5,
   5, 19, 8, 8, 15, 13, 14, 17, 18, 10,
   16, 4, 17, 4, 2, 0, 17, 4, 18, 17,
   10, 3, 2, 12, 12, 16, 12, 1, 9, 19,
   2, 10, 0, 1, 16, 12, 9, 13, 15, 13,
   16, 19, 2, 4, 6, 19, 5, 5, 8, 19,
   18, 1, 2, 15, 6, 0, 17, 8, 14, 13]

/-- `fine_to_coarse_idxs = dict(enumerate(fine_idx_to_coarse))`
(cifar_utils.py line 336): keys 0..99 in insertion order.  Keys are `Int`
because Python dict lookups may be made with any integer (e.g. -1). -/
def fine_to_coarse_idxs : List (Int × Nat) :=
  fine_idx_to_coarse.enum.map (fun p => ((p.1 : Int), p.2))

/-- Python `d.get(k)` on an insertion-ordered dict: `None` on a missing
key, never an exception. -/
def dict_get (d : List (Int × Nat)) (k : Int) : Option Nat :=
  (d.find? (fun kv => kv.1 == k)).map (fun kv => kv.2)

/-- The coarse-target remapping line of `get_test_dataloader` /
`get_validation_dataloader` (embeddings.py lines 171-173 and 191-193):
`targets = list(map(fine_to_coarse_idxs.get, targets))`. -/
def remap_targets (targets : List Int) : List (Option Nat) :=
  targets.map (fun t => dict_get fine_to_coarse_idxs t)

/-! ## Shared decoder functions

`get_granularity`, `get_parameter` and `get_parameters` are textually
identical in src/src/evaluate.py (lines 42-71) and src/src/embeddings.py
(lines 57-82); they are defined once here. -/

/-- evaluate.py lines 42-48 / embeddings.py lines 57-63. -/
def get_granularity (name : List Char) : Except Err (List Char) :=
  if pyIn ("coarse".toList) name then Except.ok ("coarse".toList)
  else if pyIn ("fine".toList) name then Except.ok ("fine".toList)
  else Except.error Err.unknownGranularity

/-- evaluate.py lines 55-61 / embeddings.py lines 66-72.  Returns
`Except.ok none` when the loop falls through without a matching token
(the implicit Python `return None`). -/
def get_parameter (name param : List Char) : Except Err (Option Int) :=
  let extension := '.' :: (pySplit ['.'] name).getLastD []
  if param ∉ [("class".toList), ("crop".toList), ("kernel".toList),
      ("width".toList), ("depth".toList)] then
    Except.error Err.invalidParameterName
  else
    match (pySplit ['_'] name).find? (fun element => pyIn param element) with
    | none => Except.ok none
    | some element =>
      match pyInt (pyReplace (pyReplace element param []) extension []) with
      | some v => Except.ok (some v)
      | none => Except.error Err.intValueError

/-- The `int(get_parameter(...))` idiom of `get_parameters`: `int` of an
integer is the identity, `int(None)` raises `TypeError`. -/
def getParamInt (name param : List Char) : Except Err Int :=
  match get_parameter name param with
  | Except.error e => Except.error e
  | Except.ok (some v) => Except.ok v
  | Except.ok none => Except.error Err.intNoneTypeError

/-- evaluate.py lines 64-71 / embeddings.py lines 75-82. -/
def get_parameters (model_filename : List Char) :
    Except Err (List Char × Int × Int × Int × Int × Int) :=
  match get_granularity model_filename with
  | Except.error e => Except.error e
  | Except.ok granularity =>
  match getParamInt model_filename ("class".toList) with
  | Except.error e => Except.error e
  | Except.ok class_id =>
  match getParamInt model_filename ("crop".toList) with
  | Except.error e => Except.error e
  | Except.ok crop_size =>
  match getParamInt model_filename ("kernel".toList) with
  | Except.error e => Except.error e
  | Except.ok kernel_size =>
  match getParamInt model_filename ("width".toList) with
  | Except.error e => Except.error e
  | Except.ok width_factor =>
  match getParamInt model_filename ("depth".toList) with
  | Except.error e => Except.error e
  | Except.ok depth =>
    Except.ok (granularity, class_id, crop_size, kernel_size, width_factor, depth)

namespace Evaluate

/-- evaluate.py lines 81-92: tests for substring `"all_"` and returns the
PAIR `(filename.replace("all_", ""), None)`; otherwise replaces the first
matching coarse class name (dict insertion order) with `class<idx>`. -/
def superclass_to_idx (filename : List Char) : SupRes :=
  if pyIn ("all_".toList) filename then
    SupRes.pairNone (pyReplace filename ("all_".toList) [])
  else
    match coarse_class_to_idx.find? (fun kv => pyIn kv.1 filename) with
    | none => SupRes.err Err.stopIteration
    | some kv =>
      SupRes.str (pyReplace filename kv.1 (("class".toList) ++ natToChars kv.2))

/-- evaluate.py lines 74-78. -/
def parse_model_path (model_path : List Char) : SupRes :=
  let model_name := (pySplit ['/'] model_path).getLastD []
  let model_name := pyReplace (pyReplace model_name (".pt".toList) []) ("model_".toList) []
  superclass_to_idx model_name

end Evaluate

namespace Embeddings

/-- embeddings.py lines 92-103: tests for substring `"_all_"` and replaces
it with `"_class-1_"` (a plain string); otherwise replaces the first
matching coarse class name (dict insertion order) with `class<idx>`. -/
def superclass_to_idx (filename : List Char) : SupRes :=
  if pyIn ("_all_".toList) filename then
    SupRes.str (pyReplace filename ("_all_".toList) ("_class-1_".toList))
  else
    match coarse_class_to_idx.find? (fun kv => pyIn kv.1 filename) with
    | none => SupRes.err Err.stopIteration
    | some kv =>
      SupRes.str (pyReplace filename kv.1 (("class".toList) ++ natToChars kv.2))

/-- embeddings.py lines 85-89. -/
def parse_model_path (model_path : List Char) : SupRes :=
  let model_name := (pySplit ['/'] model_path).getLastD []
  let model_name := pyReplace (pyReplace model_name (".pt".toList) []) ("model_".toList) []
  superclass_to_idx model_name

end Embeddings

namespace Multiclass

/-- evaluate_multiclass.py lines 60-66: same element scan but only
`crop`/`kernel`/`width`/`depth` are valid parameter names. -/
def get_parameter (name param : List Char) : Except Err (Option Int) :=
  let extension := '.' :: (pySplit ['.'] name).getLastD []
  if param ∉ [("crop".toList), ("kernel".toList), ("width".toList),
      ("depth".toList)] then
    Except.error Err.invalidParameterName
  else
    match (pySplit ['_'] name).find? (fun element => pyIn param element) with
    | none => Except.ok none
    | some element =>
      match pyInt (pyReplace (pyReplace element param []) extension []) with
      | some v => Except.ok (some v)
      | none => Except.error Err.intValueError

/-- `int(get_parameter(...))` for the multiclass variant. -/
def getParamInt (name param : List Char) : Except Err Int :=
  match Multiclass.get_parameter name param with
  | Except.error e => Except.error e
  | Except.ok (some v) => Except.ok v
  | Except.ok none => Except.error Err.intNoneTypeError

/-- evaluate_multiclass.py lines 69-74: `kernel_size = int(crop_size / 4)`
(true division then truncation toward zero, i.e. `Int.tdiv` — exact for the
integer magnitudes representable here); the `kernel` token of the filename is
never consulted. -/
def get_parameters (model_filename : List Char) :
    Except Err (Int × Int × Int × Int) :=
  match Multiclass.getParamInt model_filename ("crop".toList) with
  | Except.error e => Except.error e
  | Except.ok crop_size =>
  match Multiclass.getParamInt model_filename ("width".toList) with
  | Except.error e => Except.error e
  | Except.ok width_factor =>
  match Multiclass.getParamInt model_filename ("depth".toList) with
  | Except.error e => Except.error e
  | Except.ok depth =>
    Except.ok (crop_size, Int.tdiv crop_size 4, width_factor, depth)

/-- evaluate_multiclass.py lines 77-80 (no superclass substitution). -/
def parse_model_path (model_path : List Char) : List Char :=
  let model_name := (pySplit ['/'] model_path).getLastD []
  pyReplace (pyReplace model_name (".pt".toList) []) ("model_".toList) []

end Multiclass

/-- Modelled from the spec: the repository contains no reusable encoder
(training scripts interpolate names ad hoc), so the filename encoding is
taken from the naming convention of spec §6 and claim C1: underscore-joined
tokens — a granularity marker, the superclass token `class<i>` or the
placeholder `all`, then `crop<v>`, `kernel<v>`, `width<v>`, `depth<v>` —
with the `model_` prefix and `.pt` extension required by
`find_model_files`. -/
def encode_filename (granularity_marker : List Char) (superclass : Option Nat)
    (crop kernel width depth : List Char) : List Char :=
  ("model_".toList) ++ granularity_marker ++ '_' ::
    ((match superclass with
      | none => "all".toList
      | some i => ("class".toList) ++ natToChars i)
      ++ ("_crop".toList) ++ crop ++ ("_kernel".toList) ++ kernel
      ++ ("_width".toList) ++ width ++ ("_depth".toList) ++ depth
      ++ (".pt".toList))

/-- The decoded form of a placeholder-encoded filename: the string that
`Embeddings.parse_model_path` hands to `get_parameters` after stripping
`model_`/`.pt` and substituting the placeholder with `_class-1_`. -/
def decoded_all (gran c k w d : List Char) : List Char :=
  gran ++ ("_class-1_crop".toList) ++ c ++ ("_kernel".toList) ++ k
    ++ ("_width".toList) ++ w ++ ("_depth".toList) ++ d

/-! ## Basic lemmas about the string primitives -/

theorem pyIn_iff (pat s : List Char) : pyIn pat s = true ↔ pat <:+: s := by
  induction s with
  | nil =>
    simp [pyIn, List.isEmpty_iff]
  | cons c rest ih =>
    simp only [pyIn, Bool.or_eq_true, ih, List.isPrefixOf_iff_prefix]
    exact ( List.infix_cons_iff).symm

theorem pyIn_eq_false_iff (pat s : List Char) : pyIn pat s = false ↔ ¬ pat <:+: s := by
  rw [← pyIn_iff]
  cases pyIn pat s <;> simp

/-- An occurrence of `pat` needs every character of `pat`. -/
theorem not_sub_of_mem_not_mem {pat s : List Char} {x : Char}
    (hx : x ∈ pat) (hs : x ∉ s) : ¬ pat <:+: s :=
  fun h => hs (h.subset hx)

theorem not_sub_of_length_lt {pat s : List Char}
    (h : s.length < pat.length) : ¬ pat <:+: s :=
  fun hsub => absurd hsub.length_le (by omega)

theorem pySplitF_fuel_irrel (sep : List Char) (hsep : sep ≠ []) :
    ∀ f₁ f₂ s, s.length ≤ f₁ → s.length ≤ f₂ →
      pySplitF sep f₁ s = pySplitF sep f₂ s := by
  intro f₁
  induction f₁ using Nat.strong_induction_on with
  | _ f₁ ih =>
    intro f₂ s h₁ h₂
    match s with
    | [] =>
      cases f₁ <;> cases f₂ <;> rfl
    | c :: rest =>
      match f₁, f₂ with
      | g₁ + 1, g₂ + 1 =>
        simp only [pySplitF]
        have hlen : 0 < sep.length := List.length_pos.mpr hsep
        by_cases hpre : sep.isPrefixOf (c :: rest) = true
        · rw [if_pos hpre, if_pos hpre]
          have hd : (List.drop (sep.length - 1) rest).length ≤ g₁ := by
            simp only [List.length_drop]
            simp only [List.length_cons] at h₁
            omega
          have hd₂ : (List.drop (sep.length - 1) rest).length ≤ g₂ := by
            simp only [List.length_drop]
            simp only [List.length_cons] at h₂
            omega
          rw [ih g₁ (by omega) g₂ _ hd hd₂]
        · rw [if_neg hpre, if_neg hpre]
          have hr : rest.length ≤ g₁ := by
            simp only [List.length_cons] at h₁; omega
          have hr₂ : rest.length ≤ g₂ := by
            simp only [List.length_cons] at h₂; omega
          rw [ih g₁ (by omega) g₂ _ hr hr₂]

theorem pySplit_nil (sep : List Char) : pySplit sep [] = [[]] := by
  unfold pySplit
  by_cases h : sep.isEmpty <;> simp [h, pySplitF]

theorem pySplit_cons_pos {sep : List Char} (hsep : sep ≠ []) {c : Char} {rest : List Char}
    (h : sep.isPrefixOf (c :: rest) = true) :
    pySplit sep (c :: rest) = [] :: pySplit sep (List.drop (sep.length - 1) rest) := by
  have hne : sep.isEmpty = false := by
    cases sep with
    | nil => exact absurd rfl hsep
    | cons a sp => rfl
  unfold pySplit
  rw [hne]
  simp only [Bool.false_eq_true, if_false, List.length_cons, pySplitF]
  rw [if_pos h]
  congr 1
  exact pySplitF_fuel_irrel sep hsep rest.length (List.drop (sep.length - 1) rest).length
    (List.drop (sep.length - 1) rest) (by simp [List.length_drop]) (le_refl _)

theorem pySplit_cons_neg {sep : List Char} (hsep : sep ≠ []) {c : Char} {rest : List Char}
    (h : sep.isPrefixOf (c :: rest) = false) :
    pySplit sep (c :: rest) =
      (c :: (pySplit sep rest).headD []) :: (pySplit sep rest).tail := by
  have hne : sep.isEmpty = false := by
    cases sep with
    | nil => exact absurd rfl hsep
    | cons a sp => rfl
  unfold pySplit
  rw [hne]
  simp only [Bool.false_eq_true, if_false, List.length_cons, pySplitF]
  rw [if_neg (by rw [h]; exact Bool.false_ne_true)]

theorem pySplit_ne_nil (sep s : List Char) : pySplit sep s ≠ [] := by
  unfold pySplit
  by_cases hE : sep.isEmpty
  · simp [hE]
  · simp only [hE, Bool.false_eq_true, if_false]
    generalize s.length = fuel
    induction fuel generalizing s with
    | zero => cases s <;> simp [pySplitF]
    | succ n ih =>
      cases s with
      | nil => simp [pySplitF]
      | cons c rest =>
        simp only [pySplitF]
        by_cases hpre : sep.isPrefixOf (c :: rest) = true <;> simp [hpre]

/-- Splitting a string with no occurrence of the separator. -/
theorem pySplit_eq_single {sep : List Char} (hsep : sep ≠ []) :
    ∀ {s : List Char}, ¬ sep <:+: s → pySplit sep s = [s] := by
  intro s
  induction s with
  | nil => intro _; exact pySplit_nil sep
  | cons c rest ih =>
    intro hno
    have hpre : sep.isPrefixOf (c :: rest) = false := by
      cases hb : sep.isPrefixOf (c :: rest) with
      | false => rfl
      | true =>
        exact absurd (( List.isPrefixOf_iff_prefix).mp hb).isInfix hno
    rw [pySplit_cons_neg hsep hpre]
    rw [ih (fun hinf => hno (List.infix_cons hinf))]
    rfl

/-- Splitting at a boundary occurrence when the first character of the separator
does not occur in the part before it (so no earlier or straddling
occurrence exists). -/
theorem pySplit_boundary {ch : Char} {sp : List Char} :
    ∀ {a : List Char} (b : List Char), ch ∉ a →
    pySplit (ch :: sp) (a ++ (ch :: sp) ++ b) = a :: pySplit (ch :: sp) b := by
  intro a
  induction a with
  | nil =>
    intro b _
    rw [List.nil_append, List.cons_append]
    have hpre : (ch :: sp).isPrefixOf (ch :: (sp ++ b)) = true := by
      rw [ List.isPrefixOf_iff_prefix, ← List.cons_append]
      exact List.prefix_append _ _
    rw [pySplit_cons_pos (by simp) hpre]
    congr 1
    simp only [List.length_cons, Nat.add_sub_cancel]
    congr 1
    exact List.drop_left sp b
  | cons x a' ih =>
    intro b hx
    have hxne : ch ≠ x := fun h => hx (h ▸ List.mem_cons_self x a')
    have hshape : (x :: a') ++ (ch :: sp) ++ b = x :: (a' ++ (ch :: sp) ++ b) := by
      simp
    rw [hshape]
    have hpre : (ch :: sp).isPrefixOf (x :: (a' ++ (ch :: sp) ++ b)) = false := by
      cases hb : (ch :: sp).isPrefixOf (x :: (a' ++ (ch :: sp) ++ b)) with
      | false => rfl
      | true =>
        have h2 := ( List.isPrefixOf_iff_prefix).mp hb
        rw [List.cons_prefix_cons] at h2
        exact absurd h2.1 hxne
    rw [pySplit_cons_neg (by simp) hpre]
    rw [ih b (fun h => hx (List.mem_cons_of_mem x h))]
    rfl

theorem intercalate_cons_of_ne_nil {n x : List Char} {l : List (List Char)}
    (h : l ≠ []) : List.intercalate n (x :: l) = x ++ n ++ List.intercalate n l := by
  cases l with
  | nil => exact absurd rfl h
  | cons y ys =>
    simp [List.intercalate, List.intersperse, List.append_assoc]

theorem intercalate_single (n x : List Char) : List.intercalate n [x] = x := by
  simp [List.intercalate, List.intersperse]

/-! ### `pyReplace` corollaries -/

theorem pyReplace_no_occ {s old : List Char} (hsep : old ≠ [])
    (h : ¬ old <:+: s) (new : List Char) : pyReplace s old new = s := by
  unfold pyReplace
  rw [pySplit_eq_single hsep h, intercalate_single]

theorem pyReplace_of_length_lt {s old : List Char}
    (h : s.length < old.length) (new : List Char) : pyReplace s old new = s :=
  pyReplace_no_occ (by intro he; rw [he] at h; simp at h)
    (not_sub_of_length_lt h) new

/-- Replacing the single occurrence sitting between `a` and `b`, when the
first character of `old` occurs neither in `a` nor anywhere in `b`. -/
theorem pyReplace_boundary_single {ch : Char} {sp a b : List Char}
    (ha : ch ∉ a) (hb : ¬ (ch :: sp) <:+: b) (new : List Char) :
    pyReplace (a ++ (ch :: sp) ++ b) (ch :: sp) new = a ++ new ++ b := by
  unfold pyReplace
  rw [pySplit_boundary b ha, pySplit_eq_single (by simp) hb,
    intercalate_cons_of_ne_nil (by simp), intercalate_single]

/-! ### Substring reasoning across "holes"

The decisive lemma for the universal round-trip proofs: a pattern whose
characters are all disjoint from a non-empty middle block `c` occurs in
`a ++ c ++ b` iff it occurs in `a` or in `b` (it cannot overlap `c`). -/

/-- A proper prefix reaching past `d` into `y :: e` contains `y`. -/
theorem mem_of_prefix_past {p d e : List Char} {y : Char}
    (h : p <+: d ++ y :: e) (hlen : d.length < p.length) : y ∈ p := by
  have hp : p = (d ++ y :: e).take p.length := List.prefix_iff_eq_take.mp h
  rw [List.take_append_eq_append_take, List.take_of_length_le (by omega)] at hp
  have hpos : 0 < p.length - d.length := by omega
  cases hn : p.length - d.length with
  | zero => omega
  | succ m =>
    rw [hn, List.take_succ_cons] at hp
    rw [hp]
    exact List.mem_append_right d (List.mem_cons_self y _)

/-- A pattern disjoint from a non-empty leading block `c` occurs in `c ++ b`
iff it is empty or occurs in `b`. -/
theorem sub_hole_head {p : List Char} :
    ∀ {c : List Char}, c ≠ [] → (∀ x ∈ p, x ∉ c) → ∀ {b : List Char},
      (p <:+: c ++ b ↔ p = [] ∨ p <:+: b) := by
  intro c
  induction c with
  | nil => intro h; exact absurd rfl h
  | cons y c' ih =>
    intro _ hdisj b
    constructor
    · intro h
      rw [List.cons_append, List.infix_cons_iff] at h
      rcases h with h | h
      · cases hp : p with
        | nil => exact Or.inl rfl
        | cons z p' =>
          rw [hp, List.cons_prefix_cons] at h
          have hz : z ∈ p := hp ▸ List.mem_cons_self z p'
          have hnz : z ∉ y :: c' := hdisj z hz
          rw [h.1] at hnz
          exact absurd (List.mem_cons_self y c') hnz
      · by_cases hc' : c' = []
        · subst hc'
          rw [List.nil_append] at h
          exact Or.inr h
        · have hdisj' : ∀ x ∈ p, x ∉ c' := fun x hx hxc =>
            hdisj x hx (List.mem_cons_of_mem y hxc)
          exact (ih hc' hdisj').mp h
    · intro h
      rcases h with h | h
      · exact h ▸ List.nil_infix
      · exact h.trans ⟨y :: c', [], by simp⟩

/-- The decisive "hole" lemma: a pattern whose characters all avoid the
non-empty middle block `c` occurs in `a ++ (c ++ b)` iff it occurs in `a`
or in `b` — it cannot overlap `c`. -/
theorem sub_append_mid {p : List Char} {c : List Char} (hc : c ≠ [])
    (hdisj : ∀ x ∈ p, x ∉ c) :
    ∀ {a : List Char} {b : List Char},
      (p <:+: (a ++ (c ++ b)) ↔ p <:+: a ∨ p <:+: b) := by
  intro a
  induction a with
  | nil =>
    intro b
    rw [List.nil_append]
    rw [sub_hole_head hc hdisj]
    rw [List.infix_nil]
  | cons x a' ih =>
    intro b
    constructor
    · intro h
      rw [List.cons_append, List.infix_cons_iff] at h
      rcases h with h | h
      · by_cases hlen : p.length ≤ (x :: a').length
        · have hpre : (x :: a') <+: x :: (a' ++ (c ++ b)) := by
            rw [← List.cons_append]
            exact List.prefix_append _ _
          exact Or.inl (List.prefix_of_prefix_length_le h hpre hlen).isInfix
        · cases hcc : c with
          | nil => exact absurd hcc hc
          | cons y c'' =>
            have hre : x :: (a' ++ (c ++ b)) = (x :: a') ++ (y :: (c'' ++ b)) := by
              rw [hcc]; simp
            rw [hre] at h
            have hy : y ∈ p := mem_of_prefix_past h (by omega)
            exact absurd (hcc ▸ List.mem_cons_self y c'') (hdisj y hy)
      · rcases ih.mp h with h' | h'
        · exact Or.inl (List.infix_cons h')
        · exact Or.inr h'
    · intro h
      rcases h with h | h
      · exact h.trans ⟨[], c ++ b, by simp⟩
      · exact h.trans ⟨(x :: a') ++ c, [], by simp [List.append_assoc]⟩

/-- Hole at the very end: a pattern disjoint from trailing block `c`. -/
theorem sub_append_end {p : List Char} {c : List Char} (hc : c ≠ [])
    (hdisj : ∀ x ∈ p, x ∉ c) {a : List Char} :
    p <:+: a ++ c ↔ p <:+: a := by
  have h := @sub_append_mid p c hc hdisj a []
  rw [List.append_nil] at h
  rw [h, List.infix_nil]
  constructor
  · rintro (h' | rfl)
    · exact h'
    · exact List.nil_infix
  · exact Or.inl

/-- Characters of an all-digit block are digits, so a non-digit avoids it. -/
theorem not_mem_digit_block {x : Char} {c : List Char}
    (hx : x.isDigit = false) (hc : ∀ y ∈ c, y.isDigit = true) : x ∉ c :=
  fun hmem => by rw [hc x hmem] at hx; cases hx

theorem disj_of_no_digits {p c : List Char}
    (hp : ∀ x ∈ p, x.isDigit = false) (hc : ∀ y ∈ c, y.isDigit = true) :
    ∀ x ∈ p, x ∉ c :=
  fun x hx => not_mem_digit_block (hp x hx) hc

/-! ## Helper lemmas for the claims -/

/-- `get_parameter` returns `ok none` (the Python `None`) when the parameter
name is valid but no underscore token contains it. -/
theorem get_parameter_eq_none {f p : List Char}
    (hp : p ∈ [("class".toList), ("crop".toList), ("kernel".toList),
      ("width".toList), ("depth".toList)])
    (hnone : ∀ t ∈ pySplit ['_'] f, pyIn p t = false) :
    get_parameter f p = Except.ok none := by
  unfold get_parameter
  rw [if_neg (fun hn => hn hp)]
  rw [List.find?_eq_none.mpr (fun t ht => by rw [hnone t ht]; exact Bool.false_ne_true)]

/-- A matching element makes `find?` succeed (with its first match). -/
theorem find?_isSome_of_exists {α : Type} (p : α → Bool) {l : List α}
    (h : ∃ x ∈ l, p x = true) : ∃ y, List.find? p l = some y := by
  rcases h with ⟨x, hx, hpx⟩
  have h2 := List.find?_isSome.mpr ⟨x, hx, hpx⟩
  cases h3 : List.find? p l with
  | none => rw [h3] at h2; simp at h2
  | some y => exact ⟨y, rfl⟩

/-! ## The claims -/

/-- C3: the two implementations of the placeholder substitution diverge.
On `"x_all_y"` (which contains both `"all_"` and `"_all_"`) evaluate.py
returns the pair `("x_y", None)` while embeddings.py returns the plain
string `"x_class-1_y"`; on `"all_crop2"` (which contains `"all_"` but not
`"_all_"`) evaluate.py again returns a pair while embeddings.py falls
through to the coarse-name scan and raises `StopIteration`. -/
theorem C3_superclass_to_idx_divergent :
    Evaluate.superclass_to_idx ("x_all_y".toList) ≠
      Embeddings.superclass_to_idx ("x_all_y".toList) ∧
    Evaluate.superclass_to_idx ("x_all_y".toList) =
      SupRes.pairNone ("x_y".toList) ∧
    Embeddings.superclass_to_idx ("x_all_y".toList) =
      SupRes.str ("x_class-1_y".toList) ∧
    Evaluate.superclass_to_idx ("all_crop2".toList) =
      SupRes.pairNone ("crop2".toList) ∧
    Embeddings.superclass_to_idx ("all_crop2".toList) =
      SupRes.err Err.stopIteration := by
  decide

/-- C4 counterexample: on a filename with no `crop` token, `get_parameter`
returns the null value `None` (not a `MissingParameter` error), and
`get_parameters` then fails with the anonymous `TypeError` from
`int(None)`, which names nothing. -/
theorem C4_counterexample :
    get_parameter ("fine_class1_kernel8_width4_depth16".toList)
      ("crop".toList) = Except.ok none ∧
    get_parameters ("fine_class1_kernel8_width4_depth16".toList) =
      Except.error Err.intNoneTypeError := by
  decide

/-- C4 (amended): for every filename in which no underscore token contains
a required parameter name, `get_parameter` returns the null value `None`
rather than raising a named `MissingParameter`; full decoding then fails,
but only with the anonymous `TypeError` raised by `int(None)` (shown here
for the first extracted parameter, `class`, on any filename whose
granularity resolves). -/
theorem C4_missing_parameter :
    (∀ f p, p ∈ [("class".toList), ("crop".toList), ("kernel".toList),
        ("width".toList), ("depth".toList)] →
      (∀ t ∈ pySplit ['_'] f, pyIn p t = false) →
      get_parameter f p = Except.ok none) ∧
    (∀ f g, get_granularity f = Except.ok g →
      (∀ t ∈ pySplit ['_'] f, pyIn ("class".toList) t = false) →
      get_parameters f = Except.error Err.intNoneTypeError) := by
  constructor
  · intro f p hp hnone
    exact get_parameter_eq_none hp hnone
  · intro f g hg hnone
    have hcls : getParamInt f ("class".toList) = Except.error Err.intNoneTypeError := by
      unfold getParamInt
      rw [get_parameter_eq_none (by simp) hnone]
    unfold get_parameters
    rw [hg, hcls]

/-- C4 witness. -/
theorem C4_missing_parameter_witness :
    get_parameter ("fine_x".toList) ("crop".toList) = Except.ok none ∧
    get_parameters ("fine_x".toList) = Except.error Err.intNoneTypeError :=
  ⟨C4_missing_parameter.1 ("fine_x".toList) ("crop".toList) (by decide) (by decide),
   C4_missing_parameter.2 ("fine_x".toList) ("fine".toList) (by decide) (by decide)⟩

/-- C5 counterexample: `"fish_flowers_x"` contains two coarse class names
(`fish` and `flowers`) and no placeholder, yet `superclass_to_idx`
silently resolves to the first match in dict order (`fish`, index 1)
instead of raising an `AmbiguousSuperclass` error. -/
theorem C5_counterexample :
    pyIn ("_all_".toList) ("fish_flowers_x".toList) = false ∧
    pyIn ("fish".toList) ("fish_flowers_x".toList) = true ∧
    pyIn ("flowers".toList) ("fish_flowers_x".toList) = true ∧
    Embeddings.superclass_to_idx ("fish_flowers_x".toList) =
      SupRes.str ("class1_flowers_x".toList) := by
  decide

/-- C5 (amended): without the placeholder, zero coarse-name matches make
`superclass_to_idx` fail (with `StopIteration` from `next()`, the only
error this code can raise there), but two or more simultaneous matches do
NOT fail: the scan silently succeeds with the first matching name. -/
theorem C5_superclass_resolution (f : List Char)
    (hall : pyIn ("_all_".toList) f = false) :
    ((∀ kv ∈ coarse_class_to_idx, pyIn kv.1 f = false) →
      Embeddings.superclass_to_idx f = SupRes.err Err.stopIteration) ∧
    (∀ kv₁ kv₂, kv₁ ∈ coarse_class_to_idx → kv₂ ∈ coarse_class_to_idx →
      pyIn kv₁.1 f = true → pyIn kv₂.1 f = true → kv₁ ≠ kv₂ →
      ∃ r, Embeddings.superclass_to_idx f = SupRes.str r) := by
  constructor
  · intro hzero
    unfold Embeddings.superclass_to_idx
    rw [if_neg (by rw [hall]; exact Bool.false_ne_true)]
    rw [List.find?_eq_none.mpr
      (fun kv hkv => by rw [hzero kv hkv]; exact Bool.false_ne_true)]
  · intro kv₁ kv₂ h₁ _ hm₁ _ _
    obtain ⟨kv, hkv⟩ :=
      find?_isSome_of_exists (fun kv => pyIn kv.1 f) ⟨kv₁, h₁, hm₁⟩
    refine ⟨pyReplace f kv.1 (("class".toList) ++ natToChars kv.2), ?_⟩
    unfold Embeddings.superclass_to_idx
    rw [if_neg (by rw [hall]; exact Bool.false_ne_true), hkv]

/-- C5 witness. -/
theorem C5_superclass_resolution_witness :
    ∃ r, Embeddings.superclass_to_idx ("fish_flowers_y".toList) = SupRes.str r :=
  (C5_superclass_resolution ("fish_flowers_y".toList) (by decide)).2
    (("fish".toList), 1) (("flowers".toList), 2)
    (by decide) (by decide) (by decide) (by decide) (by decide)

/-- C6 counterexample: the fine-to-coarse lookup actually exercised by the
code is `fine_to_coarse_idxs.get`; at -1 and at 100 it silently returns the
null value `None` instead of raising an `IndexOutOfRange` error. -/
theorem C6_counterexample :
    dict_get fine_to_coarse_idxs (-1) = none ∧
    dict_get fine_to_coarse_idxs 100 = none := by
  decide

/-- C6 (amended): the lookup is total over fine indices 0..99, and for
every integer outside [0, 99] — in particular -1 and 100 — it returns
`None` (a missing-key `dict.get` miss) rather than raising. -/
theorem C6_fine_to_coarse_lookup :
    (∀ n : Nat, n < 100 →
      dict_get fine_to_coarse_idxs (Int.ofNat n) =
        some (fine_idx_to_coarse.getD n 0)) ∧
    (∀ i : Int, i < 0 ∨ 100 ≤ i → dict_get fine_to_coarse_idxs i = none) := by
  constructor
  · decide
  · intro i hi
    have hkeys : ∀ kv ∈ fine_to_coarse_idxs, 0 ≤ kv.1 ∧ kv.1 < 100 := by decide
    unfold dict_get
    rw [List.find?_eq_none.mpr (fun kv hkv hbeq => by
      have hb := of_decide_eq_true hbeq
      have hk := hkeys kv hkv
      omega)]
    rfl

/-- C6 witness. -/
theorem C6_fine_to_coarse_lookup_witness :
    dict_get fine_to_coarse_idxs (Int.ofNat 57) =
      some (fine_idx_to_coarse.getD 57 0) ∧
    dict_get fine_to_coarse_idxs (-1) = none :=
  ⟨C6_fine_to_coarse_lookup.1 57 (by decide),
   C6_fine_to_coarse_lookup.2 (-1) (Or.inl (by decide))⟩

/-- C7: remapping targets applies the dict lookup elementwise and preserves
length; on the full fine range 0..99 (each index exactly once) it yields
exactly the table mapped through `some`, so for each coarse index c the
group size equals the number of fine indices mapping to c, every one of the
20 groups is non-empty, and the group sizes sum to 100. -/
theorem C7_remap_targets :
    (∀ ts : List Int, (remap_targets ts).length = ts.length) ∧
    (remap_targets ((List.range 100).map (fun n => (n : Int))) =
      fine_idx_to_coarse.map (fun c => some c)) ∧
    (∀ c : Nat, c < 20 →
      (remap_targets ((List.range 100).map (fun n => (n : Int)))).count (some c) =
        fine_idx_to_coarse.count c ∧
      0 < fine_idx_to_coarse.count c) ∧
    ((List.range 20).map
      (fun c => (remap_targets ((List.range 100).map (fun n => (n : Int)))).count
        (some c))).sum = 100 := by
  refine ⟨?_, by decide, by decide, by decide⟩
  intro ts
  unfold remap_targets
  rw [List.length_map]

/-- C7 witness. -/
theorem C7_remap_targets_witness :
    (remap_targets [(3 : Int)]).length = 1 ∧
    0 < fine_idx_to_coarse.count 8 :=
  ⟨C7_remap_targets.1 [(3 : Int)], (C7_remap_targets.2.2.1 8 (by decide)).2⟩

/-- C8 counterexample: `"fine_coarse"` contains the substring `"fine"`,
yet granularity decoding returns `"coarse"` (the `if`/`elif` gives
`"coarse"` precedence), contradicting the unqualified "returns fine if the
substring fine occurs". -/
theorem C8_counterexample :
    pyIn ("fine".toList) ("fine_coarse".toList) = true ∧
    get_granularity ("fine_coarse".toList) = Except.ok ("coarse".toList) ∧
    get_granularity ("fine_coarse".toList) ≠ Except.ok ("fine".toList) := by
  decide

/-- C8 (amended): granularity decoding returns coarse if `"coarse"`
occurs; fine if `"fine"` occurs AND `"coarse"` does not (coarse takes
precedence when both occur); and fails with the `UnknownGranularity`
error when neither occurs. -/
theorem C8_granularity (f : List Char) :
    (pyIn ("coarse".toList) f = true →
      get_granularity f = Except.ok ("coarse".toList)) ∧
    (pyIn ("coarse".toList) f = false → pyIn ("fine".toList) f = true →
      get_granularity f = Except.ok ("fine".toList)) ∧
    (pyIn ("coarse".toList) f = false → pyIn ("fine".toList) f = false →
      get_granularity f = Except.error Err.unknownGranularity) := by
  refine ⟨fun h => ?_, fun h₁ h₂ => ?_, fun h₁ h₂ => ?_⟩
  · unfold get_granularity
    rw [if_pos h]
  · unfold get_granularity
    rw [if_neg (by rw [h₁]; exact Bool.false_ne_true), if_pos h₂]
  · unfold get_granularity
    rw [if_neg (by rw [h₁]; exact Bool.false_ne_true),
      if_neg (by rw [h₂]; exact Bool.false_ne_true)]

/-- C8 witness. -/
theorem C8_granularity_witness :
    get_granularity ("abc_coarse".toList) = Except.ok ("coarse".toList) ∧
    get_granularity ("abc_fine".toList) = Except.ok ("fine".toList) ∧
    get_granularity ("abc".toList) = Except.error Err.unknownGranularity :=
  ⟨(C8_granularity ("abc_coarse".toList)).1 (by decide),
   (C8_granularity ("abc_fine".toList)).2.1 (by decide) (by decide),
   (C8_granularity ("abc".toList)).2.2 (by decide) (by decide)⟩

/-- C9 counterexample: `"model_class7_crop32_kernel8_width4_depth16.pt"`
contains neither `"coarse"` nor `"fine"`, so `get_parameters` raises the
`UnknownGranularity` error instead of yielding any record. -/
theorem C9_counterexample :
    get_parameters ("model_class7_crop32_kernel8_width4_depth16.pt".toList) =
      Except.error Err.unknownGranularity := by
  decide

/-- C9 (amended): decoding that filename fails with `UnknownGranularity`
because it carries no granularity marker; the five individual parameter
extractions do yield class=7, crop=32, kernel=8, width=4, depth=16, so a
variant of the filename carrying a granularity marker decodes fully. -/
theorem C9_decode_example :
    get_parameters ("model_class7_crop32_kernel8_width4_depth16.pt".toList) =
      Except.error Err.unknownGranularity ∧
    get_parameter ("model_class7_crop32_kernel8_width4_depth16.pt".toList)
      ("class".toList) = Except.ok (some 7) ∧
    get_parameter ("model_class7_crop32_kernel8_width4_depth16.pt".toList)
      ("crop".toList) = Except.ok (some 32) ∧
    get_parameter ("model_class7_crop32_kernel8_width4_depth16.pt".toList)
      ("kernel".toList) = Except.ok (some 8) ∧
    get_parameter ("model_class7_crop32_kernel8_width4_depth16.pt".toList)
      ("width".toList) = Except.ok (some 4) ∧
    get_parameter ("model_class7_crop32_kernel8_width4_depth16.pt".toList)
      ("depth".toList) = Except.ok (some 16) ∧
    get_parameters ("model_fine_class7_crop32_kernel8_width4_depth16.pt".toList) =
      Except.ok (("fine".toList), 7, 32, 8, 4, 16) := by
  refine ⟨by decide, by decide, by decide, by decide, by decide, by decide, by decide⟩

/-- C10: the multiclass decoder always computes kernel_size as the
truncated quotient crop_size/4 and never consults the `kernel` token; on
`"model_fine_class1_crop32_kernel9_width4_depth16.pt"` (kernel token 9,
crop 32) it returns kernel_size 8 while the shared evaluate.py /
embeddings.py decoder returns the token value 9. -/
theorem C10_multiclass_kernel_quotient :
    (∀ f c k w d, Multiclass.get_parameters f = Except.ok (c, k, w, d) →
      k = Int.tdiv c 4) ∧
    Multiclass.get_parameters
      ("model_fine_class1_crop32_kernel9_width4_depth16.pt".toList) =
      Except.ok (32, 8, 4, 16) ∧
    get_parameters ("model_fine_class1_crop32_kernel9_width4_depth16.pt".toList) =
      Except.ok (("fine".toList), 1, 32, 9, 4, 16) := by
  refine ⟨?_, by decide, by decide⟩
  intro f c k w d h
  unfold Multiclass.get_parameters at h
  cases h₁ : Multiclass.getParamInt f ("crop".toList) with
  | error e => rw [h₁] at h; cases h
  | ok c₀ =>
    rw [h₁] at h
    cases h₂ : Multiclass.getParamInt f ("width".toList) with
    | error e => rw [h₂] at h; cases h
    | ok w₀ =>
      rw [h₂] at h
      cases h₃ : Multiclass.getParamInt f ("depth".toList) with
      | error e => rw [h₃] at h; cases h
      | ok d₀ =>
        rw [h₃] at h
        simp only [Except.ok.injEq, Prod.mk.injEq] at h
        obtain ⟨rfl, hk, -, -⟩ := h
        exact hk.symm

/-- C10 witness. -/
theorem C10_multiclass_kernel_quotient_witness :
    (8 : Int) = Int.tdiv 32 4 :=
  C10_multiclass_kernel_quotient.1
    ("model_fine_class1_crop32_kernel9_width4_depth16.pt".toList)
    32 8 4 16 C10_multiclass_kernel_quotient.2.1

/-! ## Machinery for the universal round-trip proofs (C1, C2) -/

theorem notMem_append {x : Char} {a b : List Char} (ha : x ∉ a) (hb : x ∉ b) :
    x ∉ a ++ b :=
  fun h => (List.mem_append.mp h).elim ha hb

/-- Boundary splitting, cons form. -/
theorem pySplit_boundary_cons {ch : Char} {sp : List Char} {a : List Char}
    (b : List Char) (ha : ch ∉ a) :
    pySplit (ch :: sp) (a ++ ch :: (sp ++ b)) = a :: pySplit (ch :: sp) b := by
  have h := @pySplit_boundary ch sp a b ha
  rw [List.append_assoc, List.cons_append] at h
  exact h

/-- Boundary splitting on a single-character separator. -/
theorem pySplit_boundary_one {ch : Char} {a : List Char}
    (b : List Char) (ha : ch ∉ a) :
    pySplit [ch] (a ++ ch :: b) = a :: pySplit [ch] b := by
  have h := @pySplit_boundary_cons ch [] a b ha
  rw [List.nil_append] at h
  exact h

/-- Stripping a leading literal occurrence that does not reoccur. -/
theorem pyReplace_strip_front {ch : Char} {sp s : List Char}
    (hno : ¬ (ch :: sp) <:+: s) :
    pyReplace ((ch :: sp) ++ s) (ch :: sp) [] = s := by
  have h := @pyReplace_boundary_single ch sp [] s (by simp) hno []
  simpa using h

/-- `s.split("/")[-1]` is `s` itself when `s` contains no slash. -/
theorem last_slash {s : List Char} (h : '/' ∉ s) :
    (pySplit ['/'] s).getLastD [] = s := by
  rw [pySplit_eq_single (by simp)
    (@not_sub_of_mem_not_mem ['/'] s '/' (by decide) h)]
  rfl

/-- Stripping the trailing `".pt"` from a body containing no dot. -/
theorem strip_pt {body : List Char} (h : '.' ∉ body) :
    pyReplace (body ++ (".pt".toList)) (".pt".toList) [] = body := by
  have h1 : (".pt".toList) = '.' :: ("pt".toList) := rfl
  have h2 : body ++ (".pt".toList) = body ++ ('.' :: ("pt".toList)) ++ [] := by
    rw [List.append_nil, h1]
  rw [h2, h1, @pyReplace_boundary_single '.' ("pt".toList) body [] h
    (by rw [List.infix_nil]; simp) []]
  simp

/-- Stripping the leading `"model_"` when it does not reoccur. -/
theorem strip_model {rest : List Char} (hm : 'm' ∉ rest) :
    pyReplace (("model_".toList) ++ rest) ("model_".toList) [] = rest := by
  have h1 : ("model_".toList) = 'm' :: ("odel_".toList) := rfl
  rw [h1]
  exact pyReplace_strip_front
    (@not_sub_of_mem_not_mem ('m' :: ("odel_".toList)) rest 'm'
      (List.mem_cons_self 'm' _) hm)

/-- `int(s)` on a non-empty all-digit string. -/
theorem pyInt_digits {s : List Char} (h0 : s ≠ [])
    (hD : ∀ x ∈ s, x.isDigit = true) :
    pyInt s = some ((digitsVal s : Int)) := by
  unfold pyInt
  have hhead : ¬ s.head? = some '-' := by
    cases s with
    | nil => simp
    | cons a t =>
      simp only [List.head?, Option.some.injEq]
      intro hEq
      have hdig := hD a (List.mem_cons_self a t)
      rw [hEq] at hdig
      exact absurd hdig (by decide)
  rw [if_neg hhead, if_pos ⟨h0, hD⟩]

/-- Tokenisation of a decoded placeholder filename: splitting on `'_'`
recovers the six tokens. -/
theorem tokens_decoded (gran c k w d : List Char) (hgus : '_' ∉ gran)
    (hcD : ∀ x ∈ c, x.isDigit = true) (hkD : ∀ x ∈ k, x.isDigit = true)
    (hwD : ∀ x ∈ w, x.isDigit = true) (hdD : ∀ x ∈ d, x.isDigit = true) :
    pySplit ['_'] (gran ++ ("_class-1_crop".toList) ++ c ++ ("_kernel".toList)
      ++ k ++ ("_width".toList) ++ w ++ ("_depth".toList) ++ d) =
    [gran, ("class-1".toList), ("crop".toList) ++ c, ("kernel".toList) ++ k,
     ("width".toList) ++ w, ("depth".toList) ++ d] := by
  have hshape : gran ++ ("_class-1_crop".toList) ++ c ++ ("_kernel".toList)
      ++ k ++ ("_width".toList) ++ w ++ ("_depth".toList) ++ d =
      gran ++ '_' :: (("class-1".toList) ++ '_' :: ((("crop".toList) ++ c) ++ '_' ::
        ((("kernel".toList) ++ k) ++ '_' :: ((("width".toList) ++ w) ++ '_' ::
          (("depth".toList) ++ d))))) := by
    simp only [List.append_assoc, List.cons_append]
    rfl
  rw [hshape]
  rw [pySplit_boundary_one _ hgus]
  rw [@pySplit_boundary_one '_' ("class-1".toList) _ (by decide)]
  rw [@pySplit_boundary_one '_' (("crop".toList) ++ c) _
    (notMem_append (by decide) (not_mem_digit_block (by decide) hcD))]
  rw [@pySplit_boundary_one '_' (("kernel".toList) ++ k) _
    (notMem_append (by decide) (not_mem_digit_block (by decide) hkD))]
  rw [@pySplit_boundary_one '_' (("width".toList) ++ w) _
    (notMem_append (by decide) (not_mem_digit_block (by decide) hwD))]
  rw [pySplit_eq_single (by simp)
    (@not_sub_of_mem_not_mem ['_'] (("depth".toList) ++ d) '_' (by decide)
      (notMem_append (by decide) (not_mem_digit_block (by decide) hdD)))]

/-- Negation of a Boolean predicate application, stated so that it unifies
through beta reduction. -/
theorem not_pred_of_false {p : List Char → Bool} {x : List Char}
    (h : p x = false) : ¬ p x = true :=
  fun ht => by rw [h] at ht; cases ht

/-- Evaluation of `get_parameter` once the token search result is known and
the name contains no dot (so the computed extension is `'.' :: name` and
cannot occur in any token). -/
theorem get_parameter_eval {name param element : List Char}
    (hvalid : param ∈ [("class".toList), ("crop".toList), ("kernel".toList),
      ("width".toList), ("depth".toList)])
    (hfind : (pySplit ['_'] name).find? (fun el => pyIn param el) = some element)
    (hdot : pySplit ['.'] name = [name]) :
    get_parameter name param =
      match pyInt (pyReplace (pyReplace element param []) ('.' :: name) []) with
      | some v => Except.ok (some v)
      | none => Except.error Err.intValueError := by
  simp only [get_parameter]
  rw [if_neg (fun hn => hn hvalid), hdot, hfind]
  rfl

/-- Full evaluation of `get_parameters` on a decoded placeholder filename,
abstract in the granularity marker. -/
theorem get_parameters_decoded (gran c k w d : List Char)
    (hgr : get_granularity (decoded_all gran c k w d) = Except.ok gran)
    (hgus : '_' ∉ gran) (hgdot : '.' ∉ gran)
    (hcls : pyIn ("class".toList) gran = false)
    (hcrop : pyIn ("crop".toList) gran = false)
    (hkern : pyIn ("kernel".toList) gran = false)
    (hwid : pyIn ("width".toList) gran = false)
    (hdep : pyIn ("depth".toList) gran = false)
    (hc0 : c ≠ []) (hcD : ∀ x ∈ c, x.isDigit = true)
    (hk0 : k ≠ []) (hkD : ∀ x ∈ k, x.isDigit = true)
    (hw0 : w ≠ []) (hwD : ∀ x ∈ w, x.isDigit = true)
    (hd0 : d ≠ []) (hdD : ∀ x ∈ d, x.isDigit = true) :
    get_parameters (decoded_all gran c k w d) =
      Except.ok (gran, -1, ((digitsVal c : Nat) : Int), ((digitsVal k : Nat) : Int),
        ((digitsVal w : Nat) : Int), ((digitsVal d : Nat) : Int)) := by
  have htok := tokens_decoded gran c k w d hgus hcD hkD hwD hdD
  have hdc : '.' ∉ c := not_mem_digit_block (by decide) hcD
  have hdk : '.' ∉ k := not_mem_digit_block (by decide) hkD
  have hdw : '.' ∉ w := not_mem_digit_block (by decide) hwD
  have hdd : '.' ∉ d := not_mem_digit_block (by decide) hdD
  have hdS : '.' ∉ decoded_all gran c k w d := by
    unfold decoded_all
    exact notMem_append (notMem_append (notMem_append (notMem_append
      (notMem_append (notMem_append (notMem_append (notMem_append hgdot
      (by decide)) hdc) (by decide)) hdk) (by decide)) hdw) (by decide)) hdd
  have hsplitdot : pySplit ['.'] (decoded_all gran c k w d) =
      [decoded_all gran c k w d] :=
    pySplit_eq_single (by simp)
      (@not_sub_of_mem_not_mem ['.'] (decoded_all gran c k w d) '.' (by decide) hdS)
  have hSlen : (decoded_all gran c k w d).length =
      gran.length + c.length + k.length + w.length + d.length + 32 := by
    unfold decoded_all
    simp only [List.length_append,
      show ("_class-1_crop".toList).length = 13 from rfl,
      show ("_kernel".toList).length = 7 from rfl,
      show ("_width".toList).length = 6 from rfl,
      show ("_depth".toList).length = 6 from rfl]
    omega
  have htokS : pySplit ['_'] (decoded_all gran c k w d) =
      [gran, ("class-1".toList), ("crop".toList) ++ c, ("kernel".toList) ++ k,
       ("width".toList) ++ w, ("depth".toList) ++ d] := by
    unfold decoded_all
    exact htok
  -- the five token searches
  have hfindclass : (pySplit ['_'] (decoded_all gran c k w d)).find?
      (fun el => pyIn ("class".toList) el) = some ("class-1".toList) := by
    rw [htokS]
    rw [List.find?_cons_of_neg _ (not_pred_of_false hcls)]
    exact List.find?_cons_of_pos _ (by decide)
  have hnk : pyIn ("kernel".toList) (("crop".toList) ++ c) = false := by
    rw [pyIn_eq_false_iff, sub_append_end hc0 (disj_of_no_digits (by decide) hcD)]
    decide
  have hnw1 : pyIn ("width".toList) (("crop".toList) ++ c) = false := by
    rw [pyIn_eq_false_iff, sub_append_end hc0 (disj_of_no_digits (by decide) hcD)]
    decide
  have hnw2 : pyIn ("width".toList) (("kernel".toList) ++ k) = false := by
    rw [pyIn_eq_false_iff, sub_append_end hk0 (disj_of_no_digits (by decide) hkD)]
    decide
  have hnd1 : pyIn ("depth".toList) (("crop".toList) ++ c) = false := by
    rw [pyIn_eq_false_iff, sub_append_end hc0 (disj_of_no_digits (by decide) hcD)]
    decide
  have hnd2 : pyIn ("depth".toList) (("kernel".toList) ++ k) = false := by
    rw [pyIn_eq_false_iff, sub_append_end hk0 (disj_of_no_digits (by decide) hkD)]
    decide
  have hnd3 : pyIn ("depth".toList) (("width".toList) ++ w) = false := by
    rw [pyIn_eq_false_iff, sub_append_end hw0 (disj_of_no_digits (by decide) hwD)]
    decide
  have hfindcrop : (pySplit ['_'] (decoded_all gran c k w d)).find?
      (fun el => pyIn ("crop".toList) el) = some (("crop".toList) ++ c) := by
    rw [htokS]
    rw [List.find?_cons_of_neg _ (not_pred_of_false hcrop)]
    rw [List.find?_cons_of_neg _ (by decide)]
    exact List.find?_cons_of_pos _ (by
      show pyIn ("crop".toList) (("crop".toList) ++ c) = true
      rw [pyIn_iff]
      exact (List.prefix_append _ _).isInfix)
  have hfindkernel : (pySplit ['_'] (decoded_all gran c k w d)).find?
      (fun el => pyIn ("kernel".toList) el) = some (("kernel".toList) ++ k) := by
    rw [htokS]
    rw [List.find?_cons_of_neg _ (not_pred_of_false hkern)]
    rw [List.find?_cons_of_neg _ (by decide)]
    rw [List.find?_cons_of_neg _ (not_pred_of_false hnk)]
    exact List.find?_cons_of_pos _ (by
      show pyIn ("kernel".toList) (("kernel".toList) ++ k) = true
      rw [pyIn_iff]
      exact (List.prefix_append _ _).isInfix)
  have hfindwidth : (pySplit ['_'] (decoded_all gran c k w d)).find?
      (fun el => pyIn ("width".toList) el) = some (("width".toList) ++ w) := by
    rw [htokS]
    rw [List.find?_cons_of_neg _ (not_pred_of_false hwid)]
    rw [List.find?_cons_of_neg _ (by decide)]
    rw [List.find?_cons_of_neg _ (not_pred_of_false hnw1)]
    rw [List.find?_cons_of_neg _ (not_pred_of_false hnw2)]
    exact List.find?_cons_of_pos _ (by
      show pyIn ("width".toList) (("width".toList) ++ w) = true
      rw [pyIn_iff]
      exact (List.prefix_append _ _).isInfix)
  have hfinddepth : (pySplit ['_'] (decoded_all gran c k w d)).find?
      (fun el => pyIn ("depth".toList) el) = some (("depth".toList) ++ d) := by
    rw [htokS]
    rw [List.find?_cons_of_neg _ (not_pred_of_false hdep)]
    rw [List.find?_cons_of_neg _ (by decide)]
    rw [List.find?_cons_of_neg _ (not_pred_of_false hnd1)]
    rw [List.find?_cons_of_neg _ (not_pred_of_false hnd2)]
    rw [List.find?_cons_of_neg _ (not_pred_of_false hnd3)]
    exact List.find?_cons_of_pos _ (by
      show pyIn ("depth".toList) (("depth".toList) ++ d) = true
      rw [pyIn_iff]
      exact (List.prefix_append _ _).isInfix)
  -- token value computations
  have hvcrop : pyReplace (("crop".toList) ++ c) ("crop".toList) [] = c := by
    exact pyReplace_strip_front
      (@not_sub_of_mem_not_mem ("crop".toList) c 'c' (by decide)
        (not_mem_digit_block (by decide) hcD))
  have hvkernel : pyReplace (("kernel".toList) ++ k) ("kernel".toList) [] = k := by
    exact pyReplace_strip_front
      (@not_sub_of_mem_not_mem ("kernel".toList) k 'k' (by decide)
        (not_mem_digit_block (by decide) hkD))
  have hvwidth : pyReplace (("width".toList) ++ w) ("width".toList) [] = w := by
    exact pyReplace_strip_front
      (@not_sub_of_mem_not_mem ("width".toList) w 'w' (by decide)
        (not_mem_digit_block (by decide) hwD))
  have hvdepth : pyReplace (("depth".toList) ++ d) ("depth".toList) [] = d := by
    exact pyReplace_strip_front
      (@not_sub_of_mem_not_mem ("depth".toList) d 'd' (by decide)
        (not_mem_digit_block (by decide) hdD))
  -- the five parameter extractions
  have hclassP : get_parameter (decoded_all gran c k w d) ("class".toList) =
      Except.ok (some (-1)) := by
    rw [get_parameter_eval (by decide) hfindclass hsplitdot]
    rw [show pyReplace ("class-1".toList) ("class".toList) [] = ("-1".toList)
      by decide]
    rw [pyReplace_of_length_lt (by
      simp only [List.length_cons, hSlen, show ("-1".toList).length = 2 from rfl]
      omega) []]
    decide
  have hcropP : get_parameter (decoded_all gran c k w d) ("crop".toList) =
      Except.ok (some ((digitsVal c : Nat) : Int)) := by
    rw [get_parameter_eval (by decide) hfindcrop hsplitdot, hvcrop]
    rw [pyReplace_of_length_lt (by
      simp only [List.length_cons, hSlen]
      omega) []]
    rw [pyInt_digits hc0 hcD]
  have hkernelP : get_parameter (decoded_all gran c k w d) ("kernel".toList) =
      Except.ok (some ((digitsVal k : Nat) : Int)) := by
    rw [get_parameter_eval (by decide) hfindkernel hsplitdot, hvkernel]
    rw [pyReplace_of_length_lt (by
      simp only [List.length_cons, hSlen]
      omega) []]
    rw [pyInt_digits hk0 hkD]
  have hwidthP : get_parameter (decoded_all gran c k w d) ("width".toList) =
      Except.ok (some ((digitsVal w : Nat) : Int)) := by
    rw [get_parameter_eval (by decide) hfindwidth hsplitdot, hvwidth]
    rw [pyReplace_of_length_lt (by
      simp only [List.length_cons, hSlen]
      omega) []]
    rw [pyInt_digits hw0 hwD]
  have hdepthP : get_parameter (decoded_all gran c k w d) ("depth".toList) =
      Except.ok (some ((digitsVal d : Nat) : Int)) := by
    rw [get_parameter_eval (by decide) hfinddepth hsplitdot, hvdepth]
    rw [pyReplace_of_length_lt (by
      simp only [List.length_cons, hSlen]
      omega) []]
    rw [pyInt_digits hd0 hdD]
  -- assemble
  simp only [get_parameters, getParamInt, hgr, hclassP, hcropP, hkernelP,
    hwidthP, hdepthP]

/-- Granularity of a coarse decoded filename. -/
theorem get_granularity_decoded_coarse (c k w d : List Char) :
    get_granularity (decoded_all ("coarse".toList) c k w d) =
      Except.ok ("coarse".toList) := by
  have hshape : decoded_all ("coarse".toList) c k w d =
      ("coarse".toList) ++ (("_class-1_crop".toList) ++ (c ++ (("_kernel".toList)
        ++ (k ++ (("_width".toList) ++ (w ++ (("_depth".toList) ++ d))))))) := by
    unfold decoded_all
    simp only [List.append_assoc]
  have hin : pyIn ("coarse".toList) (decoded_all ("coarse".toList) c k w d) = true := by
    rw [pyIn_iff, hshape]
    exact (List.prefix_append _ _).isInfix
  unfold get_granularity
  rw [if_pos hin]

/-- Granularity of a fine decoded filename: `"coarse"` cannot occur because
every candidate occurrence would overlap one of the all-digit blocks. -/
theorem get_granularity_decoded_fine (c k w d : List Char)
    (hc0 : c ≠ []) (hcD : ∀ x ∈ c, x.isDigit = true)
    (hk0 : k ≠ []) (hkD : ∀ x ∈ k, x.isDigit = true)
    (hw0 : w ≠ []) (hwD : ∀ x ∈ w, x.isDigit = true)
    (hd0 : d ≠ []) (hdD : ∀ x ∈ d, x.isDigit = true) :
    get_granularity (decoded_all ("fine".toList) c k w d) =
      Except.ok ("fine".toList) := by
  have hshape : decoded_all ("fine".toList) c k w d =
      ("fine_class-1_crop".toList) ++ (c ++ (("_kernel".toList) ++ (k ++
        (("_width".toList) ++ (w ++ (("_depth".toList) ++ d)))))) := by
    unfold decoded_all
    simp only [List.append_assoc]
    rfl
  have hno : pyIn ("coarse".toList) (decoded_all ("fine".toList) c k w d) = false := by
    rw [pyIn_eq_false_iff, hshape]
    rw [sub_append_mid hc0 (disj_of_no_digits (by decide) hcD)]
    rintro (h | h)
    · exact absurd h (by decide)
    · rw [sub_append_mid hk0 (disj_of_no_digits (by decide) hkD)] at h
      rcases h with h | h
      · exact absurd h (by decide)
      · rw [sub_append_mid hw0 (disj_of_no_digits (by decide) hwD)] at h
        rcases h with h | h
        · exact absurd h (by decide)
        · rw [sub_append_end hd0 (disj_of_no_digits (by decide) hdD)] at h
          exact absurd h (by decide)
  have hshape2 : decoded_all ("fine".toList) c k w d =
      ("fine".toList) ++ (("_class-1_crop".toList) ++ (c ++ (("_kernel".toList)
        ++ (k ++ (("_width".toList) ++ (w ++ (("_depth".toList) ++ d))))))) := by
    unfold decoded_all
    simp only [List.append_assoc]
  have hfin : pyIn ("fine".toList) (decoded_all ("fine".toList) c k w d) = true := by
    rw [pyIn_iff, hshape2]
    exact (List.prefix_append _ _).isInfix
  unfold get_granularity
  rw [if_neg (by rw [hno]; exact Bool.false_ne_true), if_pos hfin]

/-- `Embeddings.parse_model_path` on a placeholder-encoded filename:
strips `.pt` and `model_`, then substitutes the placeholder, producing the
decoded filename. -/
theorem parse_decoded (gran c k w d : List Char)
    (hgslash : '/' ∉ gran) (hgdot : '.' ∉ gran) (hgm : 'm' ∉ gran)
    (hgus : '_' ∉ gran)
    (hcD : ∀ x ∈ c, x.isDigit = true) (hkD : ∀ x ∈ k, x.isDigit = true)
    (hwD : ∀ x ∈ w, x.isDigit = true) (hdD : ∀ x ∈ d, x.isDigit = true) :
    Embeddings.parse_model_path (encode_filename gran none c k w d) =
      SupRes.str (decoded_all gran c k w d) := by
  have hF : encode_filename gran none c k w d =
      (("model_".toList) ++ (gran ++ (("_all_crop".toList) ++ (c ++
        (("_kernel".toList) ++ (k ++ (("_width".toList) ++ (w ++
          (("_depth".toList) ++ d))))))))) ++ (".pt".toList) := by
    unfold encode_filename
    simp only [List.append_assoc, List.cons_append]
    rfl
  have hslc : '/' ∉ c := not_mem_digit_block (by decide) hcD
  have hslk : '/' ∉ k := not_mem_digit_block (by decide) hkD
  have hslw : '/' ∉ w := not_mem_digit_block (by decide) hwD
  have hsld : '/' ∉ d := not_mem_digit_block (by decide) hdD
  have hdoc : '.' ∉ c := not_mem_digit_block (by decide) hcD
  have hdok : '.' ∉ k := not_mem_digit_block (by decide) hkD
  have hdow : '.' ∉ w := not_mem_digit_block (by decide) hwD
  have hdod : '.' ∉ d := not_mem_digit_block (by decide) hdD
  have hmc : 'm' ∉ c := not_mem_digit_block (by decide) hcD
  have hmk : 'm' ∉ k := not_mem_digit_block (by decide) hkD
  have hmw : 'm' ∉ w := not_mem_digit_block (by decide) hwD
  have hmd : 'm' ∉ d := not_mem_digit_block (by decide) hdD
  have hac : 'a' ∉ c := not_mem_digit_block (by decide) hcD
  have hslashF : '/' ∉ encode_filename gran none c k w d := by
    rw [hF]
    exact notMem_append (notMem_append (by decide) (notMem_append hgslash
      (notMem_append (by decide) (notMem_append hslc (notMem_append (by decide)
        (notMem_append hslk (notMem_append (by decide) (notMem_append hslw
          (notMem_append (by decide) hsld))))))))) (by decide)
  have hdotBody : '.' ∉ (("model_".toList) ++ (gran ++ (("_all_crop".toList)
      ++ (c ++ (("_kernel".toList) ++ (k ++ (("_width".toList) ++ (w ++
        (("_depth".toList) ++ d))))))))) := by
    exact notMem_append (by decide) (notMem_append hgdot
      (notMem_append (by decide) (notMem_append hdoc (notMem_append (by decide)
        (notMem_append hdok (notMem_append (by decide) (notMem_append hdow
          (notMem_append (by decide) hdod))))))))
  have hmRest : 'm' ∉ (gran ++ (("_all_crop".toList) ++ (c ++ (("_kernel".toList)
      ++ (k ++ (("_width".toList) ++ (w ++ (("_depth".toList) ++ d)))))))) := by
    exact notMem_append hgm (notMem_append (by decide) (notMem_append hmc
      (notMem_append (by decide) (notMem_append hmk (notMem_append (by decide)
        (notMem_append hmw (notMem_append (by decide) hmd)))))))
  simp only [Embeddings.parse_model_path]
  rw [last_slash hslashF, hF, strip_pt hdotBody, strip_model hmRest]
  -- superclass substitution on the stripped name
  have hR2 : gran ++ (("_all_crop".toList) ++ (c ++ (("_kernel".toList) ++ (k ++
      (("_width".toList) ++ (w ++ (("_depth".toList) ++ d))))))) =
      gran ++ ('_' :: ("all_".toList)) ++ (("crop".toList) ++ (c ++
        (("_kernel".toList) ++ (k ++ (("_width".toList) ++ (w ++
          (("_depth".toList) ++ d))))))) := by
    simp only [List.append_assoc, List.cons_append]
    rfl
  have hbTail : ¬ ('_' :: ("all_".toList)) <:+: (("crop".toList) ++ (c ++
      (("_kernel".toList) ++ (k ++ (("_width".toList) ++ (w ++
        (("_depth".toList) ++ d))))))) := by
    refine @not_sub_of_mem_not_mem _ _ 'a' (by decide) ?_
    exact notMem_append (by decide) (notMem_append hac (notMem_append (by decide)
      (notMem_append (not_mem_digit_block (by decide) hkD)
        (notMem_append (by decide) (notMem_append
          (not_mem_digit_block (by decide) hwD)
          (notMem_append (by decide) (not_mem_digit_block (by decide) hdD)))))))
  have htrue : pyIn ("_all_".toList) (gran ++ (("_all_crop".toList) ++ (c ++
      (("_kernel".toList) ++ (k ++ (("_width".toList) ++ (w ++
        (("_depth".toList) ++ d)))))))) = true := by
    rw [pyIn_iff, hR2]
    exact ⟨gran, _, rfl⟩
  simp only [Embeddings.superclass_to_idx]
  rw [if_pos htrue, hR2]
  rw [show ("_all_".toList) = '_' :: ("all_".toList) from rfl]
  rw [@pyReplace_boundary_single '_' ("all_".toList) gran _ hgus hbTail
    ("_class-1_".toList)]
  unfold decoded_all
  simp only [List.append_assoc]
  rfl

/-- C1 counterexample: for tuples encoded with an explicit `class<i>` token
(here fine/class7 and coarse/class5), decoding via
`parse_model_path`/`superclass_to_idx` does NOT return the tuple: the
coarse-name scan finds no match and raises `StopIteration`. -/
theorem C1_counterexample :
    Embeddings.parse_model_path (encode_filename ("fine".toList) (some 7)
      ("32".toList) ("8".toList) ("4".toList) ("16".toList)) =
      SupRes.err Err.stopIteration ∧
    Embeddings.parse_model_path (encode_filename ("coarse".toList) (some 5)
      ("32".toList) ("8".toList) ("4".toList) ("16".toList)) =
      SupRes.err Err.stopIteration := by
  decide

/-- C1 (amended): the round trip holds for the placeholder family: for
every granularity marker (coarse or fine) and all decimal token values,
decoding the placeholder-encoded filename via
`Embeddings.parse_model_path` followed by `get_parameters` returns exactly
the encoded tuple, with the placeholder restored to the sentinel -1.
Tuples encoded with an explicit `class<i>` token instead fail at
superclass resolution (see the counterexample). -/
theorem C1_round_trip_placeholder (gran c k w d : List Char)
    (hg : gran = ("coarse".toList) ∨ gran = ("fine".toList))
    (hc0 : c ≠ []) (hcD : ∀ x ∈ c, x.isDigit = true)
    (hk0 : k ≠ []) (hkD : ∀ x ∈ k, x.isDigit = true)
    (hw0 : w ≠ []) (hwD : ∀ x ∈ w, x.isDigit = true)
    (hd0 : d ≠ []) (hdD : ∀ x ∈ d, x.isDigit = true) :
    Embeddings.parse_model_path (encode_filename gran none c k w d) =
      SupRes.str (decoded_all gran c k w d) ∧
    get_parameters (decoded_all gran c k w d) =
      Except.ok (gran, -1, ((digitsVal c : Nat) : Int),
        ((digitsVal k : Nat) : Int), ((digitsVal w : Nat) : Int),
        ((digitsVal d : Nat) : Int)) := by
  rcases hg with rfl | rfl
  · exact ⟨parse_decoded _ c k w d (by decide) (by decide) (by decide)
      (by decide) hcD hkD hwD hdD,
      get_parameters_decoded _ c k w d (get_granularity_decoded_coarse c k w d)
        (by decide) (by decide) (by decide) (by decide) (by decide) (by decide)
        (by decide) hc0 hcD hk0 hkD hw0 hwD hd0 hdD⟩
  · exact ⟨parse_decoded _ c k w d (by decide) (by decide) (by decide)
      (by decide) hcD hkD hwD hdD,
      get_parameters_decoded _ c k w d
        (get_granularity_decoded_fine c k w d hc0 hcD hk0 hkD hw0 hwD hd0 hdD)
        (by decide) (by decide) (by decide) (by decide) (by decide) (by decide)
        (by decide) hc0 hcD hk0 hkD hw0 hwD hd0 hdD⟩

/-- C1 witness. -/
theorem C1_round_trip_placeholder_witness :
    Embeddings.parse_model_path (encode_filename ("coarse".toList) none
      ("32".toList) ("8".toList) ("4".toList) ("16".toList)) =
      SupRes.str (decoded_all ("coarse".toList) ("32".toList) ("8".toList)
        ("4".toList) ("16".toList)) ∧
    get_parameters (decoded_all ("coarse".toList) ("32".toList) ("8".toList)
      ("4".toList) ("16".toList)) =
      Except.ok (("coarse".toList), -1, 32, 8, 4, 16) :=
  C1_round_trip_placeholder ("coarse".toList) ("32".toList) ("8".toList)
    ("4".toList) ("16".toList) (Or.inl rfl) (by decide) (by decide)
    (by decide) (by decide) (by decide) (by decide) (by decide) (by decide)

/-- C2 counterexample: `"model_coarse_all_kernel8.pt"` contains the
placeholder `"_all_"` and the substring `"coarse"`, yet decoding does not
yield a record: the superclass stage does substitute the sentinel, but
`get_parameters` then fails on the missing `crop` token with the
`TypeError` from `int(None)`. -/
theorem C2_counterexample :
    pyIn ("_all_".toList) ("model_coarse_all_kernel8.pt".toList) = true ∧
    pyIn ("coarse".toList) ("model_coarse_all_kernel8.pt".toList) = true ∧
    Embeddings.parse_model_path ("model_coarse_all_kernel8.pt".toList) =
      SupRes.str ("coarse_class-1_kernel8".toList) ∧
    get_parameters ("coarse_class-1_kernel8".toList) =
      Except.error Err.intNoneTypeError := by
  decide

/-- C2 (amended): for every filename containing the placeholder `"_all_"`
and the substring `"coarse"`, the granularity stage returns coarse and the
superclass stage takes the placeholder branch, substituting the sentinel
token (never a lookup miss or failure); a full record additionally needs
the numeric tokens — every placeholder-encoded coarse filename decodes to
a record with superclass = -1 and granularity = coarse. -/
theorem C2_placeholder_coarse :
    (∀ f : List Char, pyIn ("_all_".toList) f = true →
      pyIn ("coarse".toList) f = true →
      get_granularity f = Except.ok ("coarse".toList) ∧
      Embeddings.superclass_to_idx f =
        SupRes.str (pyReplace f ("_all_".toList) ("_class-1_".toList))) ∧
    (∀ c k w d : List Char,
      c ≠ [] → (∀ x ∈ c, x.isDigit = true) →
      k ≠ [] → (∀ x ∈ k, x.isDigit = true) →
      w ≠ [] → (∀ x ∈ w, x.isDigit = true) →
      d ≠ [] → (∀ x ∈ d, x.isDigit = true) →
      Embeddings.parse_model_path (encode_filename ("coarse".toList) none c k w d) =
        SupRes.str (decoded_all ("coarse".toList) c k w d) ∧
      ∃ cv kv wv dv : Int,
        get_parameters (decoded_all ("coarse".toList) c k w d) =
          Except.ok (("coarse".toList), -1, cv, kv, wv, dv)) := by
  constructor
  · intro f hall hcoarse
    constructor
    · unfold get_granularity
      rw [if_pos hcoarse]
    · unfold Embeddings.superclass_to_idx
      rw [if_pos hall]
  · intro c k w d hc0 hcD hk0 hkD hw0 hwD hd0 hdD
    refine ⟨parse_decoded _ c k w d (by decide) (by decide) (by decide)
      (by decide) hcD hkD hwD hdD, _, _, _, _,
      get_parameters_decoded _ c k w d (get_granularity_decoded_coarse c k w d)
        (by decide) (by decide) (by decide) (by decide) (by decide) (by decide)
        (by decide) hc0 hcD hk0 hkD hw0 hwD hd0 hdD⟩

/-- C2 witness. -/
theorem C2_placeholder_coarse_witness :
    get_granularity ("model_coarse_all_crop32.pt".toList) =
      Except.ok ("coarse".toList) ∧
    ∃ cv kv wv dv : Int,
      get_parameters (decoded_all ("coarse".toList) ("32".toList) ("8".toList)
        ("4".toList) ("16".toList)) =
        Except.ok (("coarse".toList), -1, cv, kv, wv, dv) :=
  ⟨(C2_placeholder_coarse.1 ("model_coarse_all_crop32.pt".toList)
      (by decide) (by decide)).1,
   (C2_placeholder_coarse.2 ("32".toList) ("8".toList) ("4".toList)
      ("16".toList) (by decide) (by decide) (by decide) (by decide)
      (by decide) (by decide) (by decide) (by decide)).2⟩
